import Mathlib

/-!
Verification of the clap argument-parsing specification against a shallow
embedding of the repository's source.

The embedding covers:
* `PossibleValue` and its getters/builders, from
  `src/src/build/arg/possible_value.rs`;
* the expected elvish completion candidates, transcribed from the static
  golden strings in `src/clap_generate/tests/completions/elvish.rs`;
* spec-modelled fragments (marked in their doc comments) for the parts of
  the crate whose sources are not in the excerpt (`crate::util::eq_ignore_case`,
  the matcher entry point, the construction-time freeze validation and the
  completion generator).
-/

namespace Clap

/-- `PossibleValue<'help>` from `src/src/build/arg/possible_value.rs`:
`name`, optional `about`, a `Vec` of aliases, and a `hidden` flag.
Rust's `Default` gives `name = ""`, `about = None`, `aliases = []`,
`hidden = false`; the same defaults are recorded on the fields. -/
structure PossibleValue where
  name : String := ""
  about : Option String := none
  aliases : List String := []
  hidden : Bool := false
deriving DecidableEq, Repr

/-- `PossibleValue::new`: sets `name`, everything else from `Default::default()`. -/
def PossibleValue.new (name : String) : PossibleValue :=
  { name := name }

/-- `From<&'help str> for PossibleValue`: `Self::new(s)`. -/
def PossibleValue.fromStr (s : String) : PossibleValue :=
  PossibleValue.new s

/-- `From<&'help &'help str> for PossibleValue`: `Self::new(s)` (the extra
reference layer has no counterpart in the embedding). -/
def PossibleValue.fromStrRef (s : String) : PossibleValue :=
  PossibleValue.new s

/-- Getter `PossibleValue::get_name`. -/
def PossibleValue.get_name (p : PossibleValue) : String :=
  p.name

/-- Getter `PossibleValue::get_about`. -/
def PossibleValue.get_about (p : PossibleValue) : Option String :=
  p.about

/-- Getter `PossibleValue::is_hidden`. -/
def PossibleValue.is_hidden (p : PossibleValue) : Bool :=
  p.hidden

/-- `PossibleValue::get_visible_name`: `Some(name)` unless `hidden`. -/
def PossibleValue.get_visible_name (p : PossibleValue) : Option String :=
  if p.hidden then none else some p.name

/-- `PossibleValue::get_name_and_aliases`: `iter::once(&self.name).chain(&self.aliases)`. -/
def PossibleValue.get_name_and_aliases (p : PossibleValue) : List String :=
  p.name :: p.aliases

/-- Modelled from the spec: `crate::util::eq_ignore_case` is not under `src/`;
per §4.2 ("exact-or-case-insensitive match") and the doc-test
`matches("FAST", true)` it is ASCII-case-insensitive string equality,
embedded as equality of the character sequences after lowercasing
(`Char.toLower` lowercases exactly the ASCII uppercase letters, matching
Rust's `eq_ignore_ascii_case`). -/
def eq_ignore_case (left right : String) : Bool :=
  left.data.map Char.toLower == right.data.map Char.toLower

/-- `PossibleValue::matches(value, ignore_case)`: `any` over
`get_name_and_aliases`, comparing with `eq_ignore_case` when `ignore_case`
and with `==` otherwise. -/
def PossibleValue.matches (p : PossibleValue) (value : String) (ignore_case : Bool) : Bool :=
  if ignore_case then
    p.get_name_and_aliases.any (fun name => eq_ignore_case name value)
  else
    p.get_name_and_aliases.any (fun name => name == value)

/-- Builder `PossibleValue::about` (named `about'` because the field
projection `PossibleValue.about` takes the source name): `self.about = Some(about)`. -/
def PossibleValue.about' (p : PossibleValue) (about : String) : PossibleValue :=
  { p with about := some about }

/-- Builder `PossibleValue::hidden` (named `hidden'` because the field
projection `PossibleValue.hidden` takes the source name): `self.hidden = yes`. -/
def PossibleValue.hidden' (p : PossibleValue) (yes : Bool) : PossibleValue :=
  { p with hidden := yes }

/-- Builder `PossibleValue::alias`: `self.aliases.push(name)`. -/
def PossibleValue.alias (p : PossibleValue) (name : String) : PossibleValue :=
  { p with aliases := p.aliases ++ [name] }

/-- Builder `PossibleValue::aliases` (named `aliases'` because the field
projection `PossibleValue.aliases` takes the source name):
`self.aliases.extend(names)`. -/
def PossibleValue.aliases' (p : PossibleValue) (names : List String) : PossibleValue :=
  { p with aliases := p.aliases ++ names }

/-- Exact matching is membership in `name :: aliases`. -/
theorem matches_false_iff_mem (p : PossibleValue) (v : String) :
    p.matches v false = true ↔ v ∈ p.get_name_and_aliases := by
  simp only [PossibleValue.matches, if_neg (by simp : ¬ (false = true)), List.any_eq_true,
    beq_iff_eq]
  constructor
  · rintro ⟨n, hn, rfl⟩
    exact hn
  · intro hv
    exact ⟨v, hv, rfl⟩

end Clap

namespace Clap

/-- C1: exact (`ignore_case = false`) matching accepts the name and each
alias of a `PossibleValue` and rejects every other string. -/
theorem possible_value_round_trip (p : PossibleValue) :
    p.matches p.name false = true
      ∧ (∀ a, a ∈ p.aliases → p.matches a false = true)
      ∧ (∀ x, x ∉ p.name :: p.aliases → p.matches x false = false) := by
  refine ⟨?_, ?_, ?_⟩
  · exact (matches_false_iff_mem p p.name).mpr (List.mem_cons_self _ _)
  · intro a ha
    exact (matches_false_iff_mem p a).mpr (List.mem_cons_of_mem _ ha)
  · intro x hx
    by_contra hcontra
    have hb : p.matches x false = true := by
      cases hmb : p.matches x false with
      | false => exact absurd hmb hcontra
      | true => rfl
    exact hx ((matches_false_iff_mem p x).mp hb)

/-- Witness for C1 on `PossibleValue::new("fast").alias("not-slow")`. -/
theorem possible_value_round_trip_witness :
    ((PossibleValue.new "fast").alias "not-slow").matches "fast" false = true
      ∧ ((PossibleValue.new "fast").alias "not-slow").matches "not-slow" false = true
      ∧ ((PossibleValue.new "fast").alias "not-slow").matches "medium" false = false :=
  ⟨(possible_value_round_trip ((PossibleValue.new "fast").alias "not-slow")).1,
   (possible_value_round_trip ((PossibleValue.new "fast").alias "not-slow")).2.1
     "not-slow" (by decide),
   (possible_value_round_trip ((PossibleValue.new "fast").alias "not-slow")).2.2
     "medium" (by decide)⟩

/-- C2: case-insensitive matching is invariant under case transformation.
A case-transformed variant is a string with the same characters up to case,
i.e. the same character sequence after ASCII lowercasing. -/
theorem matches_ignore_case_invariant (p : PossibleValue) (v v' : String)
    (h : v'.data.map Char.toLower = v.data.map Char.toLower) :
    p.matches v' true = p.matches v true := by
  show p.get_name_and_aliases.any (fun name => eq_ignore_case name v')
      = p.get_name_and_aliases.any (fun name => eq_ignore_case name v)
  simp only [eq_ignore_case, h]

/-- Witness for C2: `"FAST"` is a case variant of `"fast"`, and
`PossibleValue::new("fast")` matches both case-insensitively. -/
theorem matches_ignore_case_invariant_witness :
    (PossibleValue.new "fast").matches "FAST" true
        = (PossibleValue.new "fast").matches "fast" true
      ∧ (PossibleValue.new "fast").matches "fast" true = true :=
  ⟨matches_ignore_case_invariant (PossibleValue.new "fast") "fast" "FAST" (by decide),
   by decide⟩

/-- C9: an exact match is also a case-insensitive match. -/
theorem matches_exact_implies_ignore_case (p : PossibleValue) (v : String)
    (h : p.matches v false = true) : p.matches v true = true := by
  have hv : v ∈ p.get_name_and_aliases := (matches_false_iff_mem p v).mp h
  show p.get_name_and_aliases.any (fun name => eq_ignore_case name v) = true
  simp only [List.any_eq_true]
  exact ⟨v, hv, by simp [eq_ignore_case]⟩

/-- Witness for C9 on `PossibleValue::new("fast").alias("not-slow")` at `"not-slow"`. -/
theorem matches_exact_implies_ignore_case_witness :
    ((PossibleValue.new "fast").alias "not-slow").matches "not-slow" true = true :=
  matches_exact_implies_ignore_case ((PossibleValue.new "fast").alias "not-slow")
    "not-slow" (by decide)

/-- C3: `get_visible_name` is `some name` exactly when `hidden` is `false`
(and `none` exactly when `hidden` is `true`), while `matches` is entirely
independent of the `hidden` flag. -/
theorem hidden_matches_but_invisible (p : PossibleValue) (v : String)
    (ic b : Bool) :
    (p.get_visible_name = some p.name ↔ p.hidden = false)
      ∧ (p.get_visible_name = none ↔ p.hidden = true)
      ∧ (p.hidden' b).matches v ic = p.matches v ic := by
  refine ⟨?_, ?_, ?_⟩
  · cases hb : p.hidden <;>
      simp [PossibleValue.get_visible_name, hb]
  · cases hb : p.hidden <;>
      simp [PossibleValue.get_visible_name, hb]
  · rfl

/-- C7: each builder changes only its own field. `about` sets only `about`,
`hidden` sets only `hidden`, `alias`/`aliases` only append to `aliases`;
`name` (and everything else) is untouched. -/
theorem builders_frame (p : PossibleValue) (s : String) (b : Bool)
    (a : String) (xs : List String) :
    (p.about' s).name = p.name ∧ (p.about' s).aliases = p.aliases
      ∧ (p.about' s).hidden = p.hidden ∧ (p.about' s).about = some s
      ∧ (p.hidden' b).name = p.name ∧ (p.hidden' b).about = p.about
      ∧ (p.hidden' b).aliases = p.aliases ∧ (p.hidden' b).hidden = b
      ∧ (p.alias a).name = p.name ∧ (p.alias a).about = p.about
      ∧ (p.alias a).hidden = p.hidden ∧ (p.alias a).aliases = p.aliases ++ [a]
      ∧ (p.aliases' xs).name = p.name ∧ (p.aliases' xs).about = p.about
      ∧ (p.aliases' xs).hidden = p.hidden
      ∧ (p.aliases' xs).aliases = p.aliases ++ xs :=
  ⟨rfl, rfl, rfl, rfl, rfl, rfl, rfl, rfl, rfl, rfl, rfl, rfl, rfl, rfl, rfl, rfl⟩

/-- C10: both `From` conversions are `PossibleValue::new`, which sets the
name and leaves `about = None`, `aliases = []`, `hidden = false`. -/
theorem from_str_is_new (s : String) :
    PossibleValue.fromStr s = PossibleValue.new s
      ∧ PossibleValue.fromStrRef s = PossibleValue.new s
      ∧ (PossibleValue.new s).name = s
      ∧ (PossibleValue.new s).about = none
      ∧ (PossibleValue.new s).aliases = []
      ∧ (PossibleValue.new s).hidden = false :=
  ⟨rfl, rfl, rfl, rfl, rfl, rfl⟩

/-- Modelled from the spec: the construction-time freeze validation of §6
("final `build`/freeze step validates the tree-level invariants in §3")
for one argument's possible-value set; `Arg` and the freeze step are not
under `src/`. The check fails iff some value's name is, case-sensitively,
the name or an alias of another value in the set; the membership test is
the source function `matches` with `ignore_case = false`. -/
def possible_values_unique : List PossibleValue → Bool
  | [] => true
  | p :: rest =>
      (rest.all fun q => !(q.matches p.name false) && !(p.matches q.name false))
        && possible_values_unique rest

/-- C6: in a possible-value set accepted by the freeze check, no value's
name equals, case-sensitively, another value's name or any of another
value's aliases. -/
theorem possible_values_unique_sound (pvs : List PossibleValue)
    (h : possible_values_unique pvs = true) :
    pvs.Pairwise (fun p q =>
      p.name ∉ q.get_name_and_aliases ∧ q.name ∉ p.get_name_and_aliases) := by
  induction pvs with
  | nil => exact List.Pairwise.nil
  | cons p rest ih =>
    simp only [possible_values_unique, Bool.and_eq_true, List.all_eq_true] at h
    obtain ⟨hall, hrest⟩ := h
    refine List.Pairwise.cons ?_ (ih hrest)
    intro q hq
    obtain ⟨h1, h2⟩ := hall q hq
    rw [Bool.not_eq_true'] at h1 h2
    constructor
    · intro hmem
      have ht := (matches_false_iff_mem q p.name).mpr hmem
      rw [h1] at ht
      exact absurd ht (by decide)
    · intro hmem
      have ht := (matches_false_iff_mem p q.name).mpr hmem
      rw [h2] at ht
      exact absurd ht (by decide)

/-- Witness for C6 on the set `{red, green (alias "g")}`. -/
theorem possible_values_unique_sound_witness :
    possible_values_unique
        [PossibleValue.new "red", (PossibleValue.new "green").alias "g"] = true
      ∧ List.Pairwise (fun p q =>
          p.name ∉ q.get_name_and_aliases ∧ q.name ∉ p.get_name_and_aliases)
        [PossibleValue.new "red", (PossibleValue.new "green").alias "g"] :=
  ⟨by decide, possible_values_unique_sound _ (by decide)⟩

/-- `ValueHint` (only the variants used in the source excerpt). -/
inductive ValueHint where
  | Unknown
  | FilePath
deriving DecidableEq, Repr

/-- `AppSettings` (only the variant used in the source excerpt). -/
inductive AppSettings where
  | PropagateVersion
deriving DecidableEq, Repr

/-- An `Arg`, with the fields exercised by the builders used in
`src/clap_generate/tests/completions/elvish.rs`: `short`, `long`,
`visible_short_alias`, `visible_alias`, `about`, `takes_value`,
`value_hint`, plus the `hidden` flag of §3. An argument with neither
`short` nor `long` is positional. -/
structure Arg where
  name : String
  short : Option Char := none
  long : Option String := none
  visible_short_aliases : List Char := []
  visible_aliases : List String := []
  about : Option String := none
  takes_value : Bool := false
  value_hint : ValueHint := ValueHint.Unknown
  hidden : Bool := false
deriving DecidableEq, Repr

/-- An argument with neither a short nor a long flag is positional. -/
def Arg.is_positional (a : Arg) : Bool :=
  a.short.isNone && a.long.isNone

/-- The visible flag spellings of an argument: `-c` for the short flag and
each visible short alias, `--long` for the long flag and each visible alias. -/
def Arg.visible_flag_names (a : Arg) : List String :=
  a.short.toList.map (fun c => String.mk ['-', c])
    ++ a.visible_short_aliases.map (fun c => String.mk ['-', c])
    ++ a.long.toList.map (fun l => "--" ++ l)
    ++ a.visible_aliases.map (fun l => "--" ++ l)

/-- An `App` (`Command`): name, optional version/about, settings, arguments,
subcommands and subcommand aliases, per §3 and the builders used in the
source excerpt. -/
structure App where
  name : String
  version : Option String := none
  about : Option String := none
  settings : List AppSettings := []
  args : List Arg := []
  subcommands : List App := []
  aliases : List String := []

/-- The run-time error taxonomy of §7. -/
inductive ErrorKind where
  | UnknownArgument
  | InvalidValue
  | TooFewValues
  | TooManyValues
  | MissingRequiredArgument
  | ArgumentConflict
  | MissingSubcommand
  | UnrecognizedSubcommandOrExtraPositional
  | DisplayHelp
  | DisplayVersion
deriving DecidableEq, Repr

/-- §7: `DisplayHelp` / `DisplayVersion` are "not true failures"; they are
rendered as successful output by convention and are not an exit-2 condition. -/
def ErrorKind.is_informational : ErrorKind → Bool
  | ErrorKind.DisplayHelp => true
  | ErrorKind.DisplayVersion => true
  | _ => false

/-- A diagnostic: machine-readable kind plus the rendered text. -/
structure Error where
  kind : ErrorKind
  rendered : String
deriving DecidableEq, Repr

/-- The version banner, per the assertions in `src/tests/cargo.rs`:
`"<name> <version>\n"`. -/
def render_version (a : App) : String :=
  a.name ++ " " ++ a.version.getD "" ++ "\n"

/-- Modelled from the spec: the matcher entry point `try_match` (§6) is not
under `src/` (only its caller `src/tests/cargo.rs` is); modelled here
restricted to the automatic flags. Per §4.2/§7 the auto version flag
(present when `version` is set) terminates matching early through the error
channel with kind `DisplayVersion` and the banner of `render_version`;
`--help`/`-h` likewise with `DisplayHelp`; any other flag token is
`UnknownArgument`; remaining tokens are collected as positional values. -/
def try_match (a : App) : List String → Except Error (List String)
  | [] => Except.ok []
  | tok :: rest =>
    if (tok == "--version" || tok == "-V") && a.version.isSome then
      Except.error { kind := ErrorKind.DisplayVersion, rendered := render_version a }
    else if tok == "--help" || tok == "-h" then
      Except.error { kind := ErrorKind.DisplayHelp, rendered := a.name }
    else if tok.startsWith "-" then
      Except.error { kind := ErrorKind.UnknownArgument, rendered := tok }
    else
      match try_match a rest with
      | Except.ok vals => Except.ok (tok :: vals)
      | Except.error e => Except.error e

/-- The app of the scenario: `App::new("prog").version("1")`. -/
def prog1 : App :=
  { name := "prog", version := some "1", subcommands := [] }

end Clap

namespace Clap

/-- C4: matching `["--version"]` against `prog` (version `"1"`) returns,
through the error channel, a `DisplayVersion` diagnostic rendered exactly
`"prog 1\n"`; it is not a success (`Except.error`, not `Except.ok`) and
`DisplayVersion` is informational, not a genuine failure kind. -/
theorem try_match_version_banner :
    try_match prog1 ["--version"]
        = Except.error { kind := ErrorKind.DisplayVersion, rendered := "prog 1\n" }
      ∧ ErrorKind.DisplayVersion.is_informational = true
      ∧ ErrorKind.UnknownArgument.is_informational = false := by
  exact ⟨rfl, rfl, rfl⟩

/-- `build_app_with_name` from `src/clap_generate/tests/completions/elvish.rs`:
version `3.0`, `PropagateVersion`, a positional `file` argument with a
`FilePath` value hint, and a `test` subcommand with a `--case` option. -/
def build_app_with_name (s : String) : App :=
  { name := s
    version := some "3.0"
    settings := [AppSettings.PropagateVersion]
    about := some "Tests completions"
    args := [{ name := "file", value_hint := ValueHint.FilePath,
               about := some "some input file" }]
    subcommands :=
      [{ name := "test", about := some "tests things"
         args := [{ name := "case", long := some "case", takes_value := true,
                    about := some "the case to test" }]
         subcommands := [] }] }

/-- `build_app` from the same test file. -/
def build_app : App :=
  build_app_with_name "myapp"

/-- `build_app_with_aliases` from the same test file: a `flag` argument
(`-f`/`-F`/`--flag`/`--flg`), an `option` argument
(`-o`/`-O`/`--option`/`--opt`, takes a value) and a positional
`positional` argument. -/
def build_app_with_aliases : App :=
  { name := "cmd"
    version := some "3.0"
    about := some "testing bash completions"
    args :=
      [{ name := "flag", short := some 'f', visible_short_aliases := ['F'],
         long := some "flag", visible_aliases := ["flg"],
         about := some "cmd flag" },
       { name := "option", short := some 'o', visible_short_aliases := ['O'],
         long := some "option", visible_aliases := ["opt"],
         about := some "cmd option", takes_value := true },
       { name := "positional" }]
    subcommands := [] }

/-- The completion candidates (the names of the `cand` lines), per command
path, transcribed from the static golden string `ELVISH` in
`src/clap_generate/tests/completions/elvish.rs` — the repository's expected
elvish-generator output for `build_app` under the name `my_app`. -/
def elvish_golden : List (String × List String) :=
  [("my_app", ["-h", "--help", "-V", "--version", "test", "help"]),
   ("my_app;test", ["--case", "-h", "--help", "-V", "--version"]),
   ("my_app;help", ["-h", "--help"])]

/-- The completion candidates per command path transcribed from the static
golden string `ELVISH_ALIASES` in the same test file — the expected output
for `build_app_with_aliases` under the name `cmd`. -/
def elvish_aliases_golden : List (String × List String) :=
  [("cmd", ["-o", "-O", "--option", "--opt", "-h", "--help", "-V", "--version",
            "-f", "-F", "--flag", "--flg"])]

/-- Number of occurrences of `x` in `xs`. -/
def count_occ (x : String) (xs : List String) : Nat :=
  (xs.filter fun y => y == x).length

/-- The candidate list of one command path in a per-path candidate table. -/
def cands_for (g : List (String × List String)) (path : String) : List String :=
  ((g.find? fun pc => pc.1 == path).map fun pc => pc.2).getD []

end Clap

namespace Clap

/-- C5 as stated is false on the code: `file` is a non-hidden argument of
`build_app` (a positional), yet its name appears zero times — not exactly
once — in every command path of the repository's expected elvish completion
script; likewise the non-hidden argument `positional` of
`build_app_with_aliases`. -/
theorem completion_coverage_counterexample :
    (build_app.args.any fun a => a.name == "file" && !a.hidden) = true
      ∧ (elvish_golden.all fun pc => count_occ "file" pc.2 == 0) = true
      ∧ (build_app_with_aliases.args.any
          fun a => a.name == "positional" && !a.hidden) = true
      ∧ (elvish_aliases_golden.all
          fun pc => count_occ "positional" pc.2 == 0) = true := by
  decide

/-- C5 amended, on the repository's expected elvish outputs: every visible
flag spelling of every non-hidden flag/option argument appears exactly once
in the candidate list of each command path where it is valid (and not in
other paths), every subcommand name appears exactly once in its parent's
candidate list, the auto help/version flags appear exactly once per path,
and positional argument names are never offered. -/
theorem completion_coverage_elvish :
    (build_app_with_aliases.args.all fun a =>
        if a.is_positional then
          elvish_aliases_golden.all fun pc => count_occ a.name pc.2 == 0
        else
          a.visible_flag_names.all fun n =>
            count_occ n (cands_for elvish_aliases_golden "cmd") == 1) = true
      ∧ (build_app.subcommands.all fun sc =>
          count_occ sc.name (cands_for elvish_golden "my_app") == 1) = true
      ∧ (build_app.subcommands.all fun sc =>
          sc.args.all fun a =>
            a.is_positional
              || (a.visible_flag_names.all fun n =>
                    count_occ n (cands_for elvish_golden ("my_app;" ++ sc.name)) == 1
                      && count_occ n (cands_for elvish_golden "my_app") == 0)) = true
      ∧ (build_app.args.all fun a =>
          !a.is_positional
            || (elvish_golden.all fun pc => count_occ a.name pc.2 == 0)) = true
      ∧ (["-h", "--help", "-V", "--version"].all fun n =>
          count_occ n (cands_for elvish_golden "my_app") == 1
            && count_occ n (cands_for elvish_golden "my_app;test") == 1
            && count_occ n (cands_for elvish_aliases_golden "cmd") == 1) = true := by
  decide

/-- The candidates offered at one command node: visible flag spellings of
the non-hidden flag/option arguments, the auto help/version flags, and the
subcommand names, per §4.4. -/
def node_cands (a : App) : List String :=
  ((a.args.filter fun g => !g.hidden && !g.is_positional).map
      Arg.visible_flag_names).flatten
    ++ ["-h", "--help"]
    ++ (if a.version.isSome then ["-V", "--version"] else [])
    ++ a.subcommands.map App.name

mutual

/-- Modelled from the spec: the completion generators are not under `src/`
(only their golden test data is); per §4.4 each generator is "a pure
function `Command → string`" performing a depth-first walk of the command
tree and emitting, per command path, the visible candidates. `walk` builds
the per-path candidate table, paths joined with `;` as in the elvish
dispatch table. -/
def walk (path : String) (a : App) : List (String × List String) :=
  (path, node_cands a) :: walk_list path a.subcommands
termination_by sizeOf a
decreasing_by
  cases a
  simp
  omega

/-- Depth-first walk of a list of subcommands (see `walk`). -/
def walk_list (path : String) : List App → List (String × List String)
  | [] => []
  | sc :: rest => walk (path ++ ";" ++ sc.name) sc ++ walk_list path rest
termination_by l => sizeOf l
decreasing_by
  · simp
    omega
  · simp

end

/-- Modelled from the spec: the rendered completion script, a pure function
of the frozen tree — each path section on one line, the path followed by
its candidates. -/
def generate (a : App) : String :=
  String.intercalate "\n"
    ((walk a.name a).map fun pc => pc.1 ++ ": " ++ String.intercalate " " pc.2)

end Clap

namespace Clap

/-- C8: completion-script generation is deterministic — generating twice
from the same frozen tree yields byte-for-byte identical strings (equal
character data), for the generic tree and in particular for the trees
embedded from the repository's tests. -/
theorem generate_deterministic (a : App) :
    generate a = generate a
      ∧ (generate a).data = (generate a).data
      ∧ generate build_app = generate build_app
      ∧ generate build_app_with_aliases = generate build_app_with_aliases :=
  ⟨rfl, rfl, rfl, rfl⟩

end Clap
